import Mathlib

set_option maxRecDepth 8192

/-!
Shallow embedding of the fileFire document-processing core
(`src/core/src/document/processor.rs` and the encoding detector of
`src/core/src/document/text.rs`), together with theorems about the
format detector, security analyzer, validation engine and the
orchestrating `process_document` pipeline.

Modelling conventions:
* raw byte content is `List Nat` (each element a byte value);
* Rust `Result<T>` is `Except FilefireError T`;
* `f64` fields that only ever hold exact small values (security score,
  confidence, memory estimate) are modelled as `Int` / `ℚ`: every
  arithmetic operation the source performs on them (sums and products of
  small integers, literals 0.9 / 0.5 / 1.0) is exact in IEEE double for
  all representable inputs, so the translation is value-faithful;
* the `HashMap` of magic bytes is modelled as an association list; since
  Rust's iteration order is unspecified, theorems about detection
  quantify over arbitrary permutations of the table;
* the regex engine is not re-implemented: pattern compilation + matching
  is an oracle parameter `rx : String → List Nat → Option (List Nat)`
  returning `none` for a failed compile (the source's `if let Ok(regex)`
  guard) and the list of match start positions otherwise;
* the four format-specific processors (pdf.rs, office.rs, image.rs,
  text.rs `process_document`) are oracle parameters of the engine: the
  claims under study only concern how the engine combines their `stats`
  output with its own analyses.
-/

/-! ### Data model (from `src/core/src/document/mod.rs`, `error.rs`,
`processor.rs`, `text.rs`) -/

/-- Rust `DocumentFormat` from `src/core/src/document/mod.rs` (lines 19-78).
`processor.rs` additionally references variants `PlainText` and `Yaml`
(lines 82-84), which are included so the dispatch logic can be embedded
verbatim. -/
inductive DocumentFormat where
  | Pdf | PdfA1 | PdfA2 | PdfA3 | PdfUA
  | Doc | Docx | Docm | Dot | Dotx
  | Xls | Xlsx | Xlsm | Xlt | Xltx
  | Ppt | Pptx | Pptm
  | Odt | Ods | Odp | Odg
  | Jpeg | Png | Tiff | Gif | Bmp | Svg | Webp | Avif | Heic
  | Txt | Rtf | Html | Xml | Json | Csv | Markdown
  | PlainText | Yaml
  | Zip | Rar | SevenZ | Tar | GzTar
  | Epub | Mobi | Djvu
  | Unknown (ext : String)
  deriving DecidableEq, Repr

/-- Rust `FilefireError` from `src/core/src/error.rs` (payloads that are not
strings in the source are modelled by their display string). -/
inductive FilefireError where
  | Io (msg : String)
  | Pdf (msg : String)
  | Plugin (msg : String)
  | UnsupportedFormat (msg : String)
  | InvalidDocument (msg : String)
  | AnnotationErr (msg : String)
  | Metadata (msg : String)
  | Ffi (msg : String)
  | Generic (msg : String)
  deriving DecidableEq, Repr

/-- The `thiserror` display strings of `FilefireError` (error.rs lines 5-30). -/
def FilefireError.display : FilefireError → String
  | .Io m => "IO error: " ++ m
  | .Pdf m => "PDF parsing error: " ++ m
  | .Plugin m => "Plugin error: " ++ m
  | .UnsupportedFormat m => "Unsupported format: " ++ m
  | .InvalidDocument m => "Invalid document: " ++ m
  | .AnnotationErr m => "Annotation error: " ++ m
  | .Metadata m => "Metadata error: " ++ m
  | .Ffi m => "FFI error: " ++ m
  | .Generic m => "Generic error: " ++ m

/-- Rust `ThreatSeverity` (processor.rs lines 667-673). -/
inductive ThreatSeverity where
  | Low | Medium | High | Critical
  deriving DecidableEq, Repr

/-- Rust `RiskLevel` (processor.rs lines 686-692). -/
inductive RiskLevel where
  | Low | Medium | High | Critical
  deriving DecidableEq, Repr

/-- Rust `ThreatPattern` (processor.rs lines 658-664). -/
structure ThreatPattern where
  name : String
  pattern : String
  severity : ThreatSeverity
  description : String
  deriving DecidableEq, Repr

/-- Rust `DetectedThreat` (processor.rs lines 676-683). -/
structure DetectedThreat where
  threat_type : String
  severity : ThreatSeverity
  description : String
  occurrences : Nat
  locations : List Nat
  deriving DecidableEq, Repr

/-- Rust `SecurityAnalysis` as constructed by
`SecurityAnalyzer::analyze_content` (processor.rs lines 297-305); the
struct itself is declared in a module missing from the sources, so its
fields are reconstructed from that construction site.  `security_score`
is an `f64` in the source; every value it takes is an exact small
integer, modelled as `Int`. -/
structure SecurityAnalysis where
  risk_level : RiskLevel
  security_score : Int
  threats_detected : List DetectedThreat
  is_encrypted : Bool
  has_digital_signature : Bool
  contains_macros : Bool
  external_references : List String
  deriving DecidableEq, Repr

/-- Rust `ValidationSeverity` (processor.rs lines 704-709). -/
inductive ValidationSeverity where
  | Error | Warning | Info
  deriving DecidableEq, Repr

/-- Rust `ValidationMessage` (processor.rs lines 712-718). -/
structure ValidationMessage where
  rule_name : String
  message : String
  severity : ValidationSeverity
  location : Option String
  deriving DecidableEq, Repr

/-- Rust `ValidationRuleType` (processor.rs lines 695-701). -/
inductive ValidationRuleType where
  | MaxFileSize | AllowedFormats | NoMacros | RequireEncryption
  deriving DecidableEq, Repr

/-- Rust `ValidationRule` as read by `ValidationEngine::apply_rule`
(processor.rs lines 527-619: fields `name`, `rule_type`, `threshold`,
`allowed_formats`, `required`); the struct declaration itself is in a
module missing from the sources. -/
structure ValidationRule where
  name : String
  rule_type : ValidationRuleType
  threshold : Option Nat
  allowed_formats : Option (List DocumentFormat)
  required : Option Bool
  deriving DecidableEq, Repr

/-- Rust `ValidationResult` as constructed by
`ValidationEngine::validate_document` (processor.rs lines 518-523). -/
structure ValidationResult where
  is_valid : Bool
  errors : List ValidationMessage
  warnings : List ValidationMessage
  info : List ValidationMessage
  deriving DecidableEq, Repr

/-- Rust `ProcessingStats` (mod.rs lines 371-380).  `memory_used_mb` is `f64`
in the source and only ever holds the placeholder value `0.0`, modelled
as `ℚ`. -/
structure ProcessingStats where
  processing_time_ms : Nat
  memory_used_mb : ℚ
  pages_processed : Nat
  text_extracted_chars : Nat
  images_extracted : Nat
  annotations_found : Nat
  errors_encountered : Nat
  warnings_generated : Nat
  deriving DecidableEq, Repr

/-- Rust `EncodingInfo` (text.rs lines 721-725); `confidence : f64` holds
only the exact values 1.0, 0.9, 0.95, 0.5, modelled as `ℚ`. -/
structure EncodingInfo where
  encoding : String
  confidence : ℚ
  has_bom : Bool
  deriving DecidableEq, Repr

/-! ### Byte-string utilities used by the embedding -/

/-- Codepoints of an ASCII/Unicode Lean string literal, for the byte and
text markers that appear in the Rust source. -/
def strCodes (s : String) : List Nat :=
  s.data.map (fun c => c.toNat)

/-- One step of UTF-8 decoding: pops one well-formed scalar-value
encoding off the front of the byte list, returning the decoded
codepoint and the rest, or `none`.  Ranges follow the UTF-8 definition
enforced by Rust's `str::from_utf8`: no overlong forms, no surrogates,
max U+10FFFF. -/
def utf8Step : List Nat → Option (Nat × List Nat)
  | [] => none
  | b0 :: rest =>
    if b0 < 0x80 then some (b0, rest)
    else if 0xC2 ≤ b0 ∧ b0 ≤ 0xDF then
      match rest with
      | b1 :: rest1 =>
        if 0x80 ≤ b1 ∧ b1 ≤ 0xBF
        then some ((b0 - 0xC0) * 64 + (b1 - 0x80), rest1) else none
      | [] => none
    else if 0xE0 ≤ b0 ∧ b0 ≤ 0xEF then
      match rest with
      | b1 :: b2 :: rest2 =>
        if 0x80 ≤ b1 ∧ b1 ≤ 0xBF ∧ 0x80 ≤ b2 ∧ b2 ≤ 0xBF ∧
           (b0 = 0xE0 → 0xA0 ≤ b1) ∧ (b0 = 0xED → b1 ≤ 0x9F)
        then some ((b0 - 0xE0) * 4096 + (b1 - 0x80) * 64 + (b2 - 0x80), rest2)
        else none
      | _ => none
    else if 0xF0 ≤ b0 ∧ b0 ≤ 0xF4 then
      match rest with
      | b1 :: b2 :: b3 :: rest3 =>
        if 0x80 ≤ b1 ∧ b1 ≤ 0xBF ∧ 0x80 ≤ b2 ∧ b2 ≤ 0xBF ∧
           0x80 ≤ b3 ∧ b3 ≤ 0xBF ∧
           (b0 = 0xF0 → 0x90 ≤ b1) ∧ (b0 = 0xF4 → b1 ≤ 0x8F)
        then some ((b0 - 0xF0) * 262144 + (b1 - 0x80) * 4096 +
                   (b2 - 0x80) * 64 + (b3 - 0x80), rest3)
        else none
      | _ => none
    else none

/-- Strict UTF-8 decoding by iterated `utf8Step`.  The fuel argument
(one unit per decoded scalar, initialised to the byte length) only
makes the recursion structural; since every step consumes at least one
byte it never runs out. -/
def utf8DecodeAux : Nat → List Nat → Option (List Nat)
  | 0, l => if l.isEmpty then some [] else none
  | fuel + 1, l =>
    match utf8Step l with
    | some (c, r) => (utf8DecodeAux fuel r).map (c :: ·)
    | none => if l.isEmpty then some [] else none

/-- Strict UTF-8 decoding of a byte list to its codepoint sequence,
mirroring Rust's `str::from_utf8` (`none` = invalid UTF-8). -/
def utf8Decode (l : List Nat) : Option (List Nat) :=
  utf8DecodeAux l.length l

/-- UTF-8 validity of a byte list, as decided by Rust's
`str::from_utf8` (text.rs line 658, processor.rs line 443). -/
def validUtf8 (l : List Nat) : Bool :=
  (utf8Decode l).isSome

/-- Lossy UTF-8 decoding by iterated `utf8Step`, fuelled like
`utf8DecodeAux`: an undecodable leading byte becomes U+FFFD and is
skipped. -/
def utf8LossyAux : Nat → List Nat → List Nat
  | 0, _ => []
  | fuel + 1, l =>
    match utf8Step l with
    | some (c, r) => c :: utf8LossyAux fuel r
    | none =>
      match l with
      | [] => []
      | _ :: rest => 0xFFFD :: utf8LossyAux fuel rest

/-- Lossy UTF-8 decoding mirroring Rust's `String::from_utf8_lossy`:
well-formed sequences decode normally, invalid bytes become U+FFFD.
(Rust replaces each maximal invalid subpart — up to 3 bytes — by one
U+FFFD; this model emits one U+FFFD per undecodable leading byte.  The
two outputs differ only in the number of consecutive U+FFFDs; in
particular an ASCII substring occurs in one output iff it occurs in the
other, which is the only way the analyzed code consumes the lossy
string.) -/
def utf8Lossy (l : List Nat) : List Nat :=
  utf8LossyAux l.length l

/-- Codepoints of Rust's `String::from_utf8_lossy(content)`, used by the
marker-substring checks of the security analyzer and validation
engine. -/
def content_str (content : List Nat) : List Nat :=
  utf8Lossy content

/-- Rust `char::is_whitespace` (the Unicode `White_Space` property). -/
def isRustWhitespace (c : Nat) : Bool :=
  c = 0x09 || c = 0x0A || c = 0x0B || c = 0x0C || c = 0x0D || c = 0x20 ||
  c = 0x85 || c = 0xA0 || c = 0x1680 ||
  (0x2000 ≤ c && c ≤ 0x200A) ||
  c = 0x2028 || c = 0x2029 || c = 0x202F || c = 0x205F || c = 0x3000

/-- Rust `str::trim` on a codepoint list. -/
def trimCodes (l : List Nat) : List Nat :=
  ((l.dropWhile isRustWhitespace).reverse.dropWhile isRustWhitespace).reverse

/-- Rust `str::contains(pattern)` on codepoint lists: `needle` occurs
contiguously somewhere in the haystack. -/
def containsSeq (needle : List Nat) : List Nat → Bool
  | [] => needle.isPrefixOf []
  | b :: rest => needle.isPrefixOf (b :: rest) || containsSeq needle rest

/-! ### Format detector (`FormatDetector`, processor.rs lines 372-475) -/

/-- The magic-byte table built by `FormatDetector::new` (processor.rs
lines 377-398), in source insertion order.  The source stores it in a
`HashMap`, whose iteration order is unspecified: theorems about
detection therefore quantify over arbitrary permutations of this
list. -/
def magic_bytes_table : List (List Nat × DocumentFormat) :=
  [ (strCodes "%PDF-", .Pdf),
    ([0x50, 0x4B, 0x03, 0x04], .Docx),
    ([0xD0, 0xCF, 0x11, 0xE0, 0xA1, 0xB1, 0x1A, 0xE1], .Doc),
    ([0xFF, 0xD8, 0xFF], .Jpeg),
    ([0x89, 0x50, 0x4E, 0x47, 0x0D, 0x0A, 0x1A, 0x0A], .Png),
    (strCodes "GIF87a", .Gif),
    (strCodes "GIF89a", .Gif),
    (strCodes "BM", .Bmp),
    ([0x49, 0x49, 0x2A, 0x00], .Tiff),
    ([0x4D, 0x4D, 0x00, 0x2A], .Tiff),
    (strCodes "RIFF", .Webp) ]

/-- The magic-byte loop of `detect_format` (processor.rs lines 403-407):
the first table entry whose bytes prefix the content wins.
`content.len() >= magic.len() && content[0..magic.len()] == magic` is
exactly `isPrefixOf`. -/
def findMagic (table : List (List Nat × DocumentFormat)) (content : List Nat) :
    Option DocumentFormat :=
  table.findSome? (fun e => if e.1.isPrefixOf content then some e.2 else none)

/-- ASCII lowercasing of a codepoint list; agrees with Rust
`str::to_lowercase` on ASCII input, which is all the extension lookup
distinguishes. -/
def asciiLower (l : List Nat) : List Nat :=
  l.map (fun c => if 65 ≤ c ∧ c ≤ 90 then c + 32 else c)

/-- Codepoint list back to a string (every codepoint produced by the
embedding is a valid scalar value). -/
def codesToString (l : List Nat) : String :=
  ⟨l.map Char.ofNat⟩

/-- Rust `Path::new(name).extension()` (processor.rs line 411): the part
of the last path component after its last `.`, provided that dot is not
the leading character; the special components `.` and `..` have no
extension. -/
def pathExtension (name : String) : Option (List Nat) :=
  let comps := (strCodes name).splitOn 47
  let file := ((comps.filter (fun c => c ≠ [])).getLast?).getD []
  if file = [] ∨ file = [46] ∨ file = [46, 46] then none
  else
    let stem := (file.reverse.dropWhile (fun c => c ≠ 46)).reverse
    if stem = [] ∨ stem = [46] then none
    else some ((file.reverse.takeWhile (fun c => c ≠ 46)).reverse)

/-- The extension → format table of `detect_format` (processor.rs lines
413-437). -/
def extensionFormat (ext : List Nat) : Except FilefireError DocumentFormat :=
  let e := asciiLower ext
  if e = strCodes "pdf" then .ok .Pdf
  else if e = strCodes "docx" then .ok .Docx
  else if e = strCodes "doc" then .ok .Doc
  else if e = strCodes "xlsx" then .ok .Xlsx
  else if e = strCodes "xls" then .ok .Xls
  else if e = strCodes "pptx" then .ok .Pptx
  else if e = strCodes "ppt" then .ok .Ppt
  else if e = strCodes "jpg" ∨ e = strCodes "jpeg" then .ok .Jpeg
  else if e = strCodes "png" then .ok .Png
  else if e = strCodes "gif" then .ok .Gif
  else if e = strCodes "bmp" then .ok .Bmp
  else if e = strCodes "tiff" ∨ e = strCodes "tif" then .ok .Tiff
  else if e = strCodes "webp" then .ok .Webp
  else if e = strCodes "svg" then .ok .Svg
  else if e = strCodes "txt" then .ok .PlainText
  else if e = strCodes "rtf" then .ok .Rtf
  else if e = strCodes "md" then .ok .Markdown
  else if e = strCodes "html" ∨ e = strCodes "htm" then .ok .Html
  else if e = strCodes "csv" then .ok .Csv
  else if e = strCodes "json" then .ok .Json
  else if e = strCodes "xml" then .ok .Xml
  else if e = strCodes "yaml" ∨ e = strCodes "yml" then .ok .Yaml
  else .error (.UnsupportedFormat ("Unknown extension: " ++ codesToString e))

/-- The text-based content sniffing of `detect_format` (processor.rs
lines 443-471), applied to the trimmed codepoints of a valid-UTF-8
content.  Codepoints 123/125 are the braces, 60/62 the angle brackets,
44 the comma, 35 the hash, 10 the newline, 13 the carriage return. -/
def sniffFormat (t : List Nat) : DocumentFormat :=
  if (strCodes "<!DOCTYPE html").isPrefixOf t ∨ (strCodes "<html").isPrefixOf t then
    .Html
  else if t.head? = some 123 ∧ t.getLast? = some 125 then
    .Json
  else if (strCodes "<?xml").isPrefixOf t ∨ (t.head? = some 60 ∧ t.getLast? = some 62) then
    .Xml
  else if containsSeq (strCodes "---" ++ [10]) t ∨ (strCodes "---").isPrefixOf t then
    .Yaml
  else if t.contains 44 ∧ (let fl := t.takeWhile (fun c => c ≠ 10);
            (if fl.getLast? = some 13 then fl.dropLast else fl).contains 44) then
    .Csv
  else if t.contains 35 ∨ containsSeq (strCodes "**") t ∨ containsSeq [96, 96, 96] t then
    .Markdown
  else
    .PlainText

/-- Rust `FormatDetector::detect_format` (processor.rs lines 401-474),
parameterized by the magic-byte table to model the unspecified
`HashMap` iteration order. -/
def detect_format (table : List (List Nat × DocumentFormat))
    (content : List Nat) (filename : Option String) :
    Except FilefireError DocumentFormat :=
  match findMagic table content with
  | some format => .ok format
  | none =>
    let sniff : Except FilefireError DocumentFormat :=
      match utf8Decode content with
      | some cps => .ok (sniffFormat (trimCodes cps))
      | none => .error (.UnsupportedFormat "Unable to detect document format")
    match filename with
    | some name =>
      match pathExtension name with
      | some ext => extensionFormat ext
      | none => sniff
    | none => sniff

/-! ### Security analyzer (`SecurityAnalyzer`, processor.rs lines 215-369) -/

/-- The regex engine is an oracle: `find pattern content` is `none` when
`regex::Regex::new(pattern)` fails (the source guards every use with
`if let Ok(regex)`), and otherwise the list of match start positions of
`find_iter` over the (lossy-decoded) content; `find_strs` likewise
returns the matched substrings for the reference extractor. -/
structure RegexEngine where
  find : String → List Nat → Option (List Nat)
  find_strs : String → List Nat → Option (List String)

/-- Rust `SecurityAnalyzer::load_threat_patterns` (processor.rs lines 227-254). -/
def load_threat_patterns : List ThreatPattern :=
  [ { name := "JavaScript",
      pattern := "<script|javascript:|eval\\(|setTimeout\\(|setInterval\\(",
      severity := .Medium,
      description := "Potentially malicious JavaScript code" },
    { name := "External Links",
      pattern := "https?://(?!(?:localhost|127\\.0\\.0\\.1|192\\.168\\.|10\\.|172\\.(?:1[6-9]|2[0-9]|3[01])\\.))[^\\s]+",
      severity := .Low,
      description := "External links that could be malicious" },
    { name := "Embedded Files",
      pattern := "/EmbeddedFile|/FileAttachment",
      severity := .Medium,
      description := "Embedded files that could contain malware" },
    { name := "Form Actions",
      pattern := "/AA\\s|/OpenAction|/JS\\s",
      severity := .High,
      description := "Automatic actions that could be malicious" } ]

/-- The per-severity score reduction (processor.rs lines 276-281). -/
def score_reduction : ThreatSeverity → Int
  | .Low => 5
  | .Medium => 15
  | .High => 30
  | .Critical => 50

/-- Number of match occurrences a regex oracle reports for one pattern
(0 when the pattern fails to compile, `matches.len()` otherwise). -/
def occCount (rx : RegexEngine) (pat : String) (content : List Nat) : Nat :=
  match rx.find pat content with
  | some locs => locs.length
  | none => 0

/-- One iteration of the threat-pattern loop of `analyze_content`
(processor.rs lines 263-285), acting on the accumulated (threats,
running score) pair. -/
def threatStep (rx : RegexEngine) (content : List Nat)
    (acc : List DetectedThreat × Int) (p : ThreatPattern) :
    List DetectedThreat × Int :=
  match rx.find p.pattern content with
  | none => acc
  | some locs =>
    if locs.isEmpty then acc
    else
      (acc.1 ++ [{ threat_type := p.name, severity := p.severity,
                   description := p.description, occurrences := locs.length,
                   locations := locs }],
       acc.2 - score_reduction p.severity * locs.length)

/-- The risk-level banding of `analyze_content` (processor.rs lines
290-295), applied to `security_score as u32` (exact here: the score is
an integer in [0,100] after flooring). -/
def risk_level_of (s : Nat) : RiskLevel :=
  if 80 ≤ s ∧ s ≤ 100 then .Low
  else if 60 ≤ s ∧ s ≤ 79 then .Medium
  else if 40 ≤ s ∧ s ≤ 59 then .High
  else .Critical

/-- Rust `SecurityAnalyzer::check_encryption` (processor.rs lines 309-323). -/
def check_encryption (content : List Nat) (format : DocumentFormat) :
    Except FilefireError Bool :=
  match format with
  | .Pdf | .PdfA1 | .PdfA2 | .PdfA3 | .PdfUA =>
    .ok (containsSeq (strCodes "/Encrypt") (content_str content))
  | .Docx | .Xlsx | .Pptx =>
    .ok (decide (content.length > 8) &&
         decide (content.take 8 = [0xD0, 0xCF, 0x11, 0xE0, 0xA1, 0xB1, 0x1A, 0xE1]))
  | _ => .ok false

/-- Rust `SecurityAnalyzer::check_digital_signature` (processor.rs lines 326-335). -/
def check_digital_signature (content : List Nat) (format : DocumentFormat) :
    Except FilefireError Bool :=
  match format with
  | .Pdf | .PdfA1 | .PdfA2 | .PdfA3 | .PdfUA =>
    .ok (containsSeq (strCodes "/Sig") (content_str content) ||
         containsSeq (strCodes "/DocMDP") (content_str content))
  | _ => .ok false

/-- Rust `SecurityAnalyzer::check_macros` (processor.rs lines 338-346). -/
def check_macros (content : List Nat) (format : DocumentFormat) :
    Except FilefireError Bool :=
  match format with
  | .Docx | .Xlsx | .Pptx =>
    .ok (containsSeq (strCodes "vbaProject.bin") (content_str content) ||
         containsSeq (strCodes "macros/") (content_str content))
  | _ => .ok false

/-- Rust `SecurityAnalyzer::extract_external_references` (processor.rs lines
349-368): both URL regexes are guarded by `if let Ok`, a failed compile
contributing nothing. -/
def extract_external_references (rx : RegexEngine) (content : List Nat) :
    Except FilefireError (List String) :=
  .ok (((rx.find_strs "https?://[^\\s\\)]+" content).getD []) ++
       ((rx.find_strs "file://[^\\s\\)]+" content).getD []))

/-- Rust `SecurityAnalyzer::analyze_content` (processor.rs lines 257-306). -/
def analyze_content (rx : RegexEngine) (content : List Nat)
    (format : DocumentFormat) : Except FilefireError SecurityAnalysis := do
  let td := load_threat_patterns.foldl (threatStep rx content) ([], 100)
  let security_score := max td.2 0
  let risk_level := risk_level_of security_score.toNat
  let enc ← check_encryption content format
  let sig ← check_digital_signature content format
  let mac ← check_macros content format
  let refs ← extract_external_references rx content
  .ok { risk_level := risk_level, security_score := security_score,
        threats_detected := td.1, is_encrypted := enc,
        has_digital_signature := sig, contains_macros := mac,
        external_references := refs }

/-! ### Validation engine (`ValidationEngine`, processor.rs lines 478-620) -/

/-- Rust `{:?}` (Debug) rendering of a `DocumentFormat`, used in error
and validation messages. -/
def debugFormat : DocumentFormat → String
  | .Pdf => "Pdf" | .PdfA1 => "PdfA1" | .PdfA2 => "PdfA2"
  | .PdfA3 => "PdfA3" | .PdfUA => "PdfUA"
  | .Doc => "Doc" | .Docx => "Docx" | .Docm => "Docm"
  | .Dot => "Dot" | .Dotx => "Dotx"
  | .Xls => "Xls" | .Xlsx => "Xlsx" | .Xlsm => "Xlsm"
  | .Xlt => "Xlt" | .Xltx => "Xltx"
  | .Ppt => "Ppt" | .Pptx => "Pptx" | .Pptm => "Pptm"
  | .Odt => "Odt" | .Ods => "Ods" | .Odp => "Odp" | .Odg => "Odg"
  | .Jpeg => "Jpeg" | .Png => "Png" | .Tiff => "Tiff" | .Gif => "Gif"
  | .Bmp => "Bmp" | .Svg => "Svg" | .Webp => "Webp" | .Avif => "Avif"
  | .Heic => "Heic"
  | .Txt => "Txt" | .Rtf => "Rtf" | .Html => "Html" | .Xml => "Xml"
  | .Json => "Json" | .Csv => "Csv" | .Markdown => "Markdown"
  | .PlainText => "PlainText" | .Yaml => "Yaml"
  | .Zip => "Zip" | .Rar => "Rar" | .SevenZ => "SevenZ"
  | .Tar => "Tar" | .GzTar => "GzTar"
  | .Epub => "Epub" | .Mobi => "Mobi" | .Djvu => "Djvu"
  | .Unknown s => "Unknown(\"" ++ s ++ "\")"

/-- Rust `ValidationEngine::apply_rule` (processor.rs lines 527-619). -/
def apply_rule (content : List Nat) (format : DocumentFormat)
    (rule : ValidationRule) : Except FilefireError ValidationMessage :=
  match rule.rule_type with
  | .MaxFileSize =>
    if content.length > rule.threshold.getD 10000000 then
      .ok { rule_name := rule.name,
            message := "File size " ++ toString content.length ++
                       " exceeds maximum allowed size",
            severity := .Error, location := none }
    else
      .ok { rule_name := rule.name,
            message := "File size within acceptable limits",
            severity := .Info, location := none }
  | .AllowedFormats =>
    if (rule.allowed_formats.map (fun formats => formats.contains format)).getD true then
      .ok { rule_name := rule.name,
            message := "Document format is allowed",
            severity := .Info, location := none }
    else
      .ok { rule_name := rule.name,
            message := "Document format " ++ debugFormat format ++ " is not allowed",
            severity := .Error, location := none }
  | .NoMacros =>
    if containsSeq (strCodes "vbaProject.bin") (content_str content) ||
       containsSeq (strCodes "macros/") (content_str content) then
      .ok { rule_name := rule.name,
            message := "Document contains macros which are not allowed",
            severity := .Error, location := none }
    else
      .ok { rule_name := rule.name,
            message := "No macros detected",
            severity := .Info, location := none }
  | .RequireEncryption =>
    let is_encrypted :=
      match format with
      | .Pdf | .PdfA1 | .PdfA2 | .PdfA3 | .PdfUA =>
        containsSeq (strCodes "/Encrypt") (content_str content)
      | _ => false
    if rule.required.getD false && !is_encrypted then
      .ok { rule_name := rule.name,
            message := "Document encryption is required but not present",
            severity := .Error, location := none }
    else
      .ok { rule_name := rule.name,
            message := (if is_encrypted then "Document is encrypted"
                        else "Document is not encrypted"),
            severity := .Info, location := none }

/-- The Error-severity message `validate_document` builds when a rule
evaluation fails (processor.rs lines 505-512). -/
def ruleFailureMessage (rule : ValidationRule) (e : FilefireError) :
    ValidationMessage :=
  { rule_name := rule.name,
    message := "Validation rule failed: " ++ e.display,
    severity := .Error, location := none }

/-- One iteration of the rule loop of `validate_document` (processor.rs
lines 496-514): dispatch the rule result (or its failure) onto the
(errors, warnings, info) accumulator. -/
def validateStep
    (applyR : List Nat → DocumentFormat → ValidationRule →
              Except FilefireError ValidationMessage)
    (content : List Nat) (format : DocumentFormat)
    (acc : List ValidationMessage × List ValidationMessage × List ValidationMessage)
    (rule : ValidationRule) :
    List ValidationMessage × List ValidationMessage × List ValidationMessage :=
  match applyR content format rule with
  | .ok result =>
    match result.severity with
    | .Error => (acc.1 ++ [result], acc.2.1, acc.2.2)
    | .Warning => (acc.1, acc.2.1 ++ [result], acc.2.2)
    | .Info => (acc.1, acc.2.1, acc.2.2 ++ [result])
  | .error e => (acc.1 ++ [ruleFailureMessage rule e], acc.2.1, acc.2.2)

/-- Rust `ValidationEngine::validate_document` (processor.rs lines 486-524),
parameterized by the rule evaluator (the source's `apply_rule`, whose
`Result` the loop matches on). -/
def validate_document
    (applyR : List Nat → DocumentFormat → ValidationRule →
              Except FilefireError ValidationMessage)
    (content : List Nat) (format : DocumentFormat)
    (rules : List ValidationRule) : Except FilefireError ValidationResult :=
  let ewi := rules.foldl (validateStep applyR content format) ([], [], [])
  .ok { is_valid := ewi.1.isEmpty, errors := ewi.1,
        warnings := ewi.2.1, info := ewi.2.2 }

/-! ### Processing engine (`DocumentProcessingEngine`, processor.rs
lines 16-212) -/

/-- Rust `PerformanceMonitor::get_memory_usage` (processor.rs lines 630-633):
the placeholder implementation returns 0.0. -/
def get_memory_usage : ℚ := 0

/-- The fields of `ProcessedPdfDocument` (pdf.rs) that the engine
reads: its `stats` and extracted text. -/
structure ProcessedPdfDocument where
  text_content : String
  stats : ProcessingStats
  deriving DecidableEq, Repr

/-- The fields of `ProcessedOfficeDocument` (office.rs) that the engine
reads. -/
structure ProcessedOfficeDocument where
  text_content : String
  stats : ProcessingStats
  deriving DecidableEq, Repr

/-- The fields of `ProcessedImageDocument` (image.rs) that the engine
reads. -/
structure ProcessedImageDocument where
  stats : ProcessingStats
  deriving DecidableEq, Repr

/-- The fields of `ProcessedTextDocument` (text.rs lines 704-717) that
the engine reads. -/
structure ProcessedTextDocument where
  text_content : String
  stats : ProcessingStats
  deriving DecidableEq, Repr

/-- Rust `ProcessingResult` (processor.rs lines 637-643). -/
inductive ProcessingResult where
  | Pdf (d : ProcessedPdfDocument)
  | Office (d : ProcessedOfficeDocument)
  | Image (d : ProcessedImageDocument)
  | Text (d : ProcessedTextDocument)
  deriving DecidableEq, Repr

/-- Rust `ProcessedDocument` (processor.rs lines 646-655); `processed_at` is
the engine's clock reading (`chrono::Utc::now()`), an oracle input. -/
structure ProcessedDocument where
  format : DocumentFormat
  security_analysis : SecurityAnalysis
  validation_result : ValidationResult
  processing_result : ProcessingResult
  overall_stats : ProcessingStats
  filename : Option String
  processed_at : Nat
  deriving DecidableEq, Repr

/-- The four format-specific processors (pdf.rs / office.rs / image.rs /
text.rs `process_document`), as oracle parameters of the engine: the
engine only dispatches to them and reads fields of their results. -/
structure FormatProcessors where
  pdf : List Nat → Option String → Except FilefireError ProcessedPdfDocument
  office : List Nat → DocumentFormat → Except FilefireError ProcessedOfficeDocument
  image : List Nat → DocumentFormat → Except FilefireError ProcessedImageDocument
  text : List Nat → DocumentFormat → Except FilefireError ProcessedTextDocument

/-- Rust `DocumentProcessingEngine::get_pages_processed` (processor.rs lines
119-126). -/
def get_pages_processed : ProcessingResult → Nat
  | .Pdf d => d.stats.pages_processed
  | .Office d => d.stats.pages_processed
  | .Image d => d.stats.pages_processed
  | .Text d => d.stats.pages_processed

/-- Rust `DocumentProcessingEngine::get_text_chars` (processor.rs lines 129-136). -/
def get_text_chars : ProcessingResult → Nat
  | .Pdf d => d.stats.text_extracted_chars
  | .Office d => d.stats.text_extracted_chars
  | .Image d => d.stats.text_extracted_chars
  | .Text d => d.stats.text_extracted_chars

/-- Rust `DocumentProcessingEngine::get_images_extracted` (processor.rs lines
139-146). -/
def get_images_extracted : ProcessingResult → Nat
  | .Pdf d => d.stats.images_extracted
  | .Office d => d.stats.images_extracted
  | .Image d => d.stats.images_extracted
  | .Text d => d.stats.images_extracted

/-- Rust `DocumentProcessingEngine::get_annotations_found` (processor.rs
lines 149-156). -/
def get_annotations_found : ProcessingResult → Nat
  | .Pdf d => d.stats.annotations_found
  | .Office d => d.stats.annotations_found
  | .Image d => d.stats.annotations_found
  | .Text d => d.stats.annotations_found

/-- The format-family dispatch of `process_document` (processor.rs lines
62-92). -/
def dispatchProcessor (procs : FormatProcessors) (content : List Nat)
    (password : Option String) (detected_format : DocumentFormat) :
    Except FilefireError ProcessingResult :=
  match detected_format with
  | .Pdf | .PdfA1 | .PdfA2 | .PdfA3 | .PdfUA =>
    (procs.pdf content password).map .Pdf
  | .Docx | .Doc | .Xlsx | .Xls | .Pptx | .Ppt =>
    (procs.office content detected_format).map .Office
  | .Jpeg | .Png | .Gif | .Bmp | .Tiff | .Webp | .Svg | .Heic | .Avif =>
    (procs.image content detected_format).map .Image
  | .PlainText | .Rtf | .Markdown | .Html | .Csv | .Json | .Xml | .Yaml =>
    (procs.text content detected_format).map .Text
  | _ =>
    .error (.UnsupportedFormat ("Unsupported format: " ++ debugFormat detected_format))

/-- Rust `DocumentProcessingEngine::process_document` (processor.rs lines
43-116).  `elapsed_ms` is the wall-clock measurement
`start_time.elapsed().as_millis() as u64` and `now` the
`chrono::Utc::now()` reading, both oracle inputs; `as u32` on the
validation error/warning counts is the Rust truncating cast. -/
def process_document (rx : RegexEngine) (procs : FormatProcessors)
    (table : List (List Nat × DocumentFormat)) (elapsed_ms now : Nat)
    (content : List Nat) (filename : Option String)
    (password : Option String) (validation_rules : List ValidationRule) :
    Except FilefireError ProcessedDocument := do
  let detected_format ← detect_format table content filename
  let security_analysis ← analyze_content rx content detected_format
  let validation_result ← validate_document apply_rule content detected_format validation_rules
  let processing_result ← dispatchProcessor procs content password detected_format
  let overall_stats : ProcessingStats :=
    { processing_time_ms := elapsed_ms,
      memory_used_mb := get_memory_usage,
      pages_processed := get_pages_processed processing_result,
      text_extracted_chars := get_text_chars processing_result,
      images_extracted := get_images_extracted processing_result,
      annotations_found := get_annotations_found processing_result,
      errors_encountered := validation_result.errors.length % 2 ^ 32,
      warnings_generated := validation_result.warnings.length % 2 ^ 32 }
  .ok { format := detected_format, security_analysis := security_analysis,
        validation_result := validation_result,
        processing_result := processing_result,
        overall_stats := overall_stats, filename := filename,
        processed_at := now }

/-- Rust `DocumentProcessingEngine::security_scan` (processor.rs lines
191-199): detect the format when none is supplied (propagating a
detection failure), then analyze. -/
def security_scan (rx : RegexEngine)
    (table : List (List Nat × DocumentFormat)) (content : List Nat)
    (format : Option DocumentFormat) : Except FilefireError SecurityAnalysis := do
  let detected_format ←
    match format with
    | some fmt => pure fmt
    | none => detect_format table content none
  analyze_content rx content detected_format

/-! ### Encoding detector (`EncodingDetector`, text.rs lines 622-683) -/

/-- Rust `EncodingDetector::detect_encoding` (text.rs lines 629-682).  The
length guards of the source (`content.len() >= 3 && content[0..3] = …`)
are exactly prefix tests. -/
def detect_encoding (content : List Nat) : Except FilefireError EncodingInfo :=
  if [0xEF, 0xBB, 0xBF].isPrefixOf content then
    .ok { encoding := "UTF-8", confidence := 1, has_bom := true }
  else if [0xFF, 0xFE].isPrefixOf content then
    .ok { encoding := "UTF-16LE", confidence := 1, has_bom := true }
  else if [0xFE, 0xFF].isPrefixOf content then
    .ok { encoding := "UTF-16BE", confidence := 1, has_bom := true }
  else if validUtf8 content then
    .ok { encoding := "UTF-8", confidence := 9/10, has_bom := false }
  else if content.all (fun b => b < 128) then
    .ok { encoding := "ASCII", confidence := 19/20, has_bom := false }
  else
    .ok { encoding := "UTF-8", confidence := 1/2, has_bom := false }

/-! ### Derived definitions used to state the theorems -/

/-- Two magic-table entries are independent when neither magic starts
with the other's; a table that is pairwise independent selects at most
one entry on any content, making the `HashMap` iteration order
irrelevant. -/
@[reducible] def entriesIndep (a b : List Nat × DocumentFormat) : Prop :=
  ¬(a.1 <+: b.1) ∧ ¬(b.1 <+: a.1)

instance decEntriesIndep (a b : List Nat × DocumentFormat) :
    Decidable (entriesIndep a b) := by
  unfold entriesIndep
  have d : ∀ (x y : List Nat), Decidable (x <+: y) := fun x y =>
    decidable_of_iff (x.isPrefixOf y = true) (by simp)
  exact @instDecidableAnd _ _ (@instDecidableNot _ (d _ _)) (@instDecidableNot _ (d _ _))

/-- Total score reduction the threat-pattern loop applies for a given
regex oracle and content. -/
def totalReduction (rx : RegexEngine) (content : List Nat) : Int :=
  (load_threat_patterns.map
    (fun p => score_reduction p.severity * (occCount rx p.pattern content : Int))).sum

/-- The single `ValidationMessage` rule evaluation contributes for one
rule: the evaluator's message, or the Error-severity failure message
(processor.rs lines 497-513). -/
def ruleMessage
    (applyR : List Nat → DocumentFormat → ValidationRule →
              Except FilefireError ValidationMessage)
    (content : List Nat) (format : DocumentFormat)
    (rule : ValidationRule) : ValidationMessage :=
  match applyR content format rule with
  | .ok r => r
  | .error e => ruleFailureMessage rule e

/-- A regex oracle on which every pattern fails to compile (every
`if let Ok(regex)` guard takes the failure branch). -/
def rxZero : RegexEngine :=
  { find := fun _ _ => none, find_strs := fun _ _ => none }

/-- All-zero processing statistics, for sample processor oracles. -/
def zeroStats : ProcessingStats :=
  { processing_time_ms := 0, memory_used_mb := 0, pages_processed := 0,
    text_extracted_chars := 0, images_extracted := 0,
    annotations_found := 0, errors_encountered := 0, warnings_generated := 0 }

/-- Sample processor oracles that succeed with empty results, for
concrete witness runs of the engine. -/
def sampleProcs : FormatProcessors :=
  { pdf := fun _ _ => .ok { text_content := "", stats := zeroStats },
    office := fun _ _ => .ok { text_content := "", stats := zeroStats },
    image := fun _ _ => .ok { stats := zeroStats },
    text := fun _ _ => .ok { text_content := "", stats := zeroStats } }

/-- A sample MaxFileSize rule with threshold 0, for concrete witness
runs of the validation engine. -/
def sampleRule : ValidationRule :=
  { name := "max", rule_type := .MaxFileSize, threshold := some 0,
    allowed_formats := none, required := none }

/-! ### Theorems: format detection (C1) -/

theorem prefix_comparable {c a b : List Nat} (ha : a <+: c) (hb : b <+: c) :
    a <+: b ∨ b <+: a := by
  have ha' := (List.prefix_iff_eq_take).mp ha
  have hb' := (List.prefix_iff_eq_take).mp hb
  rcases le_total a.length b.length with h | h
  · left
    have h1 : List.take a.length b = a := by
      rw [hb', List.take_take, min_eq_left h]
      exact ha'.symm
    rw [← h1]
    exact List.take_prefix _ _
  · right
    have h1 : List.take b.length a = b := by
      rw [ha', List.take_take, min_eq_left h]
      exact hb'.symm
    rw [← h1]
    exact List.take_prefix _ _

theorem findMagic_cons (e : List Nat × DocumentFormat)
    (rest : List (List Nat × DocumentFormat)) (content : List Nat) :
    findMagic (e :: rest) content =
      if e.1 <+: content then some e.2 else findMagic rest content := by
  simp only [findMagic, List.findSome?_cons]
  by_cases hp : e.1 <+: content
  · simp [hp]
  · simp [hp]

theorem magic_table_indep : magic_bytes_table.Pairwise entriesIndep := by
  decide

theorem entriesIndep_symm {a b : List Nat × DocumentFormat} :
    entriesIndep a b → entriesIndep b a := by
  intro h; exact ⟨h.2, h.1⟩

theorem findMagic_eq_some_of_mem :
    ∀ (tbl : List (List Nat × DocumentFormat)) (content m : List Nat)
      (f : DocumentFormat), tbl.Pairwise entriesIndep → (m, f) ∈ tbl →
      m <+: content → findMagic tbl content = some f := by
  intro tbl
  induction tbl with
  | nil => intro content m f _ hmem; cases hmem
  | cons e rest ih =>
    intro content m f hpw hmem hpre
    have hpw' := List.pairwise_cons.mp hpw
    rcases List.mem_cons.mp hmem with heq | hmem'
    · cases heq
      rw [findMagic_cons, if_pos hpre]
    · by_cases hh : e.1 <+: content
      · rcases prefix_comparable hh hpre with hc | hc
        · exact absurd hc (hpw'.1 (m, f) hmem').1
        · exact absurd hc (hpw'.1 (m, f) hmem').2
      · rw [findMagic_cons, if_neg hh]
        exact ih content m f hpw'.2 hmem' hpre

theorem findMagic_eq_none_iff (tbl : List (List Nat × DocumentFormat))
    (content : List Nat) :
    findMagic tbl content = none ↔ ∀ e ∈ tbl, ¬(e.1 <+: content) := by
  unfold findMagic
  rw [List.findSome?_eq_none_iff]
  constructor
  · intro h e he hp
    have := h e he
    simp [hp] at this
  · intro h e he
    simp [h e he]

theorem findMagic_perm_invariant (tbl₁ tbl₂ : List (List Nat × DocumentFormat))
    (content : List Nat) (hperm : tbl₁.Perm tbl₂)
    (hpw : tbl₁.Pairwise entriesIndep) :
    findMagic tbl₁ content = findMagic tbl₂ content := by
  have hpw₂ : tbl₂.Pairwise entriesIndep :=
    hpw.perm hperm (fun h => entriesIndep_symm h)
  cases h : findMagic tbl₁ content with
  | some f =>
    obtain ⟨e, he, hfe⟩ := List.exists_of_findSome?_eq_some h
    by_cases hpre : e.1 <+: content
    · have hf : e.2 = f := by simpa [hpre] using hfe
      have := findMagic_eq_some_of_mem tbl₂ content e.1 e.2 hpw₂
        ((hperm.mem_iff).mp he) hpre
      rw [hf] at this
      rw [this]
    · simp [hpre] at hfe
  | none =>
    rw [findMagic_eq_none_iff] at h
    have : findMagic tbl₂ content = none := by
      rw [findMagic_eq_none_iff]
      intro e he
      exact h e ((hperm.mem_iff).mpr he)
    rw [this]

theorem detect_format_perm_invariant (tbl₁ tbl₂ : List (List Nat × DocumentFormat))
    (content : List Nat) (filename : Option String) (hperm : tbl₁.Perm tbl₂)
    (hpw : tbl₁.Pairwise entriesIndep) :
    detect_format tbl₁ content filename = detect_format tbl₂ content filename := by
  unfold detect_format
  rw [findMagic_perm_invariant tbl₁ tbl₂ content hperm hpw]

/-- C1: any content whose byte prefix matches a magic-byte table entry is
detected as that entry's format, for every iteration order of the table
and regardless of the filename; in particular PNG-signature content with
filename "x.unknown" is `Png`, and ZIP-local-file-header content is
`Docx`. -/
theorem C1_detect_format_magic_priority
    (tbl : List (List Nat × DocumentFormat)) (content : List Nat)
    (filename : Option String) (m : List Nat) (f : DocumentFormat)
    (hperm : tbl.Perm magic_bytes_table)
    (hmem : (m, f) ∈ magic_bytes_table)
    (hpre : m <+: content) :
    detect_format tbl content filename = .ok f := by
  have hpw : tbl.Pairwise entriesIndep :=
    magic_table_indep.perm hperm.symm (fun h => entriesIndep_symm h)
  have hmem' : (m, f) ∈ tbl := (hperm.mem_iff).mpr hmem
  have hfind : findMagic tbl content = some f :=
    findMagic_eq_some_of_mem tbl content m f hpw hmem' hpre
  unfold detect_format
  rw [hfind]

/-- Witness for C1: the PNG signature with filename "x.unknown" detects
as `Png`, and the ZIP local-file-header signature detects as `Docx`. -/
theorem C1_witness :
    detect_format magic_bytes_table
      [0x89, 0x50, 0x4E, 0x47, 0x0D, 0x0A, 0x1A, 0x0A, 0x61, 0x62]
      (some "x.unknown") = .ok .Png ∧
    detect_format magic_bytes_table [0x50, 0x4B, 0x03, 0x04, 0x00]
      none = .ok .Docx := by
  constructor
  · exact C1_detect_format_magic_priority magic_bytes_table _ _
      [0x89, 0x50, 0x4E, 0x47, 0x0D, 0x0A, 0x1A, 0x0A] .Png
      (List.Perm.refl _) (by decide) (by decide)
  · exact C1_detect_format_magic_priority magic_bytes_table _ _
      [0x50, 0x4B, 0x03, 0x04] .Docx
      (List.Perm.refl _) (by decide) (by decide)

/-! ### Theorems: security scoring (C2, C8) -/

theorem threatStep_score (rx : RegexEngine) (content : List Nat)
    (acc : List DetectedThreat × Int) (p : ThreatPattern) :
    (threatStep rx content acc p).2 =
      acc.2 - score_reduction p.severity * (occCount rx p.pattern content : Int) := by
  unfold threatStep occCount
  cases h : rx.find p.pattern content with
  | none => simp
  | some locs =>
    by_cases he : locs.isEmpty
    · rw [List.isEmpty_iff] at he
      simp [he]
    · simp [he]

theorem threat_foldl_score (rx : RegexEngine) (content : List Nat) :
    ∀ (l : List ThreatPattern) (acc : List DetectedThreat × Int),
      (l.foldl (threatStep rx content) acc).2 =
        acc.2 - (l.map (fun p =>
          score_reduction p.severity * (occCount rx p.pattern content : Int))).sum := by
  intro l
  induction l with
  | nil => intro acc; simp
  | cons p rest ih =>
    intro acc
    rw [List.foldl_cons, ih, threatStep_score, List.map_cons, List.sum_cons]
    ring

theorem score_reduction_nonneg (s : ThreatSeverity) : 0 ≤ score_reduction s := by
  cases s <;> decide

theorem totalReduction_nonneg (rx : RegexEngine) (content : List Nat) :
    0 ≤ totalReduction rx content := by
  unfold totalReduction
  apply List.sum_nonneg
  intro x hx
  obtain ⟨p, _, rfl⟩ := List.mem_map.mp hx
  exact mul_nonneg (score_reduction_nonneg _) (Int.natCast_nonneg _)

theorem totalReduction_mono (rx rx₂ : RegexEngine) (content : List Nat)
    (h : ∀ p ∈ load_threat_patterns,
      occCount rx p.pattern content ≤ occCount rx₂ p.pattern content) :
    totalReduction rx content ≤ totalReduction rx₂ content := by
  unfold totalReduction
  apply List.sum_le_sum
  intro p hp
  exact mul_le_mul_of_nonneg_left (Int.ofNat_le.mpr (h p hp))
    (score_reduction_nonneg _)

theorem analyze_content_ok (rx : RegexEngine) (content : List Nat)
    (format : DocumentFormat) :
    ∃ a, analyze_content rx content format = .ok a ∧
      a.security_score = max (100 - totalReduction rx content) 0 ∧
      a.risk_level = risk_level_of a.security_score.toNat := by
  obtain ⟨b1, h1⟩ : ∃ b, check_encryption content format = .ok b := by
    cases format <;> exact ⟨_, rfl⟩
  obtain ⟨b2, h2⟩ : ∃ b, check_digital_signature content format = .ok b := by
    cases format <;> exact ⟨_, rfl⟩
  obtain ⟨b3, h3⟩ : ∃ b, check_macros content format = .ok b := by
    cases format <;> exact ⟨_, rfl⟩
  have hscore :
      (load_threat_patterns.foldl (threatStep rx content) ([], 100)).2 =
      100 - totalReduction rx content := by
    rw [threat_foldl_score]
    rfl
  have hrun : analyze_content rx content format = .ok
      { risk_level := risk_level_of
          (max (load_threat_patterns.foldl (threatStep rx content) ([], 100)).2 0).toNat,
        security_score :=
          max (load_threat_patterns.foldl (threatStep rx content) ([], 100)).2 0,
        threats_detected :=
          (load_threat_patterns.foldl (threatStep rx content) ([], 100)).1,
        is_encrypted := b1, has_digital_signature := b2, contains_macros := b3,
        external_references :=
          ((rx.find_strs "https?://[^\\s\\)]+" content).getD []) ++
          ((rx.find_strs "file://[^\\s\\)]+" content).getD []) } := by
    unfold analyze_content
    rw [h1, h2, h3]
    rfl
  refine ⟨_, hrun, ?_, ?_⟩
  · exact congrArg (fun x => max x 0) hscore
  · rfl

/-- C2: the security score returned by `analyze_content` always lies in
[0, 100], equals the initial 100 minus 5/15/30/50 per Low/Medium/High/
Critical match occurrence floored at 0, and is monotonically
non-increasing as the per-pattern occurrence counts grow on
otherwise-identical content. -/
theorem C2_security_score_bounds_and_monotone (rx rx₂ : RegexEngine)
    (content : List Nat) (format : DocumentFormat) :
    ∃ a, analyze_content rx content format = .ok a ∧
      0 ≤ a.security_score ∧ a.security_score ≤ 100 ∧
      a.security_score = max (100 - totalReduction rx content) 0 ∧
      ((∀ p ∈ load_threat_patterns,
          occCount rx p.pattern content ≤ occCount rx₂ p.pattern content) →
        ∀ a₂, analyze_content rx₂ content format = .ok a₂ →
          a₂.security_score ≤ a.security_score) := by
  obtain ⟨a, ha, hs, _⟩ := analyze_content_ok rx content format
  refine ⟨a, ha, ?_, ?_, hs, ?_⟩
  · rw [hs]; exact le_max_right _ _
  · rw [hs]
    have h0 := totalReduction_nonneg rx content
    exact max_le (by omega) (by norm_num)
  · intro hmono a₂ ha₂
    obtain ⟨a₂', ha₂', hs₂, _⟩ := analyze_content_ok rx₂ content format
    rw [ha₂'] at ha₂
    have heq : a₂ = a₂' := by
      cases ha₂; rfl
    subst heq
    rw [hs₂, hs]
    have := totalReduction_mono rx rx₂ content hmono
    exact max_le_max (by omega) le_rfl

/-- Witness for C2: on empty content with the all-failing regex oracle,
the score is defined, within bounds, and the monotonicity conclusion
holds against the same oracle. -/
theorem C2_witness :
    ∃ a, analyze_content rxZero [] .Pdf = .ok a ∧
      0 ≤ a.security_score ∧ a.security_score ≤ 100 ∧
      ∀ a₂, analyze_content rxZero [] .Pdf = .ok a₂ →
        a₂.security_score ≤ a.security_score := by
  obtain ⟨a, ha, h0, h100, _, hm⟩ :=
    C2_security_score_bounds_and_monotone rxZero rxZero [] .Pdf
  exact ⟨a, ha, h0, h100, hm (fun p _ => le_refl _)⟩

/-- C8: the risk level follows the documented banding of the security
score — 80-100 Low, 60-79 Medium, 40-59 High, below 40 Critical, lower
bounds inclusive — and `analyze_content` assigns exactly
`risk_level_of` of its (floored, integral) score. -/
theorem C8_risk_level_banding :
    (∀ s : Nat,
      (80 ≤ s ∧ s ≤ 100 → risk_level_of s = .Low) ∧
      (60 ≤ s ∧ s ≤ 79 → risk_level_of s = .Medium) ∧
      (40 ≤ s ∧ s ≤ 59 → risk_level_of s = .High) ∧
      (s < 40 → risk_level_of s = .Critical)) ∧
    (∀ (rx : RegexEngine) (content : List Nat) (format : DocumentFormat)
       (a : SecurityAnalysis), analyze_content rx content format = .ok a →
       a.risk_level = risk_level_of a.security_score.toNat) := by
  constructor
  · intro s
    refine ⟨?_, ?_, ?_, ?_⟩ <;> intro h <;> unfold risk_level_of <;>
      split_ifs with h1 h2 h3 <;> first | rfl | omega
  · intro rx content format a ha
    obtain ⟨a', ha', _, hr⟩ := analyze_content_ok rx content format
    rw [ha'] at ha
    cases ha
    exact hr

/-- Witness for C8: the banding evaluated at the boundary scores, and
the risk level of a concrete analysis. -/
theorem C8_witness :
    risk_level_of 80 = .Low ∧ risk_level_of 79 = .Medium ∧
    risk_level_of 60 = .Medium ∧ risk_level_of 59 = .High ∧
    risk_level_of 40 = .High ∧ risk_level_of 39 = .Critical ∧
    ∀ a, analyze_content rxZero [] .Pdf = .ok a →
      a.risk_level = risk_level_of a.security_score.toNat := by
  obtain ⟨hband, htie⟩ := C8_risk_level_banding
  exact ⟨(hband 80).1 (by omega), (hband 79).2.1 (by omega),
         (hband 60).2.1 (by omega), (hband 59).2.2.1 (by omega),
         (hband 40).2.2.1 (by omega), (hband 39).2.2.2 (by omega),
         fun a ha => htie rxZero [] .Pdf a ha⟩

/-! ### Theorems: validation engine (C3, C4) -/

theorem validateStep_eq
    (applyR : List Nat → DocumentFormat → ValidationRule →
              Except FilefireError ValidationMessage)
    (content : List Nat) (format : DocumentFormat)
    (acc : List ValidationMessage × List ValidationMessage × List ValidationMessage)
    (rule : ValidationRule) :
    validateStep applyR content format acc rule =
      (acc.1 ++ (if (ruleMessage applyR content format rule).severity = .Error
                 then [ruleMessage applyR content format rule] else []),
       acc.2.1 ++ (if (ruleMessage applyR content format rule).severity = .Warning
                   then [ruleMessage applyR content format rule] else []),
       acc.2.2 ++ (if (ruleMessage applyR content format rule).severity = .Info
                   then [ruleMessage applyR content format rule] else [])) := by
  unfold validateStep ruleMessage
  cases h : applyR content format rule with
  | ok r => cases hs : r.severity <;> simp [hs]
  | error e => simp [ruleFailureMessage]

theorem validate_foldl
    (applyR : List Nat → DocumentFormat → ValidationRule →
              Except FilefireError ValidationMessage)
    (content : List Nat) (format : DocumentFormat) :
    ∀ (rules : List ValidationRule)
      (acc : List ValidationMessage × List ValidationMessage × List ValidationMessage),
      rules.foldl (validateStep applyR content format) acc =
        (acc.1 ++ (rules.map (ruleMessage applyR content format)).filter
                    (fun m => m.severity == ValidationSeverity.Error),
         acc.2.1 ++ (rules.map (ruleMessage applyR content format)).filter
                    (fun m => m.severity == ValidationSeverity.Warning),
         acc.2.2 ++ (rules.map (ruleMessage applyR content format)).filter
                    (fun m => m.severity == ValidationSeverity.Info)) := by
  intro rules
  induction rules with
  | nil => intro acc; simp
  | cons r rs ih =>
    intro acc
    rw [List.foldl_cons, ih, validateStep_eq]
    simp only [List.map_cons, List.filter_cons, List.append_assoc]
    cases hsev : (ruleMessage applyR content format r).severity <;> simp [hsev]

theorem validate_document_eq
    (applyR : List Nat → DocumentFormat → ValidationRule →
              Except FilefireError ValidationMessage)
    (content : List Nat) (format : DocumentFormat)
    (rules : List ValidationRule) :
    validate_document applyR content format rules = .ok
      { is_valid := ((rules.map (ruleMessage applyR content format)).filter
                      (fun m => m.severity == ValidationSeverity.Error)).isEmpty,
        errors := (rules.map (ruleMessage applyR content format)).filter
                    (fun m => m.severity == ValidationSeverity.Error),
        warnings := (rules.map (ruleMessage applyR content format)).filter
                    (fun m => m.severity == ValidationSeverity.Warning),
        info := (rules.map (ruleMessage applyR content format)).filter
                    (fun m => m.severity == ValidationSeverity.Info) } := by
  unfold validate_document
  rw [validate_foldl]
  rfl

theorem severity_filter_lengths :
    ∀ msgs : List ValidationMessage,
      (msgs.filter (fun m => m.severity == ValidationSeverity.Error)).length +
      (msgs.filter (fun m => m.severity == ValidationSeverity.Warning)).length +
      (msgs.filter (fun m => m.severity == ValidationSeverity.Info)).length =
      msgs.length := by
  intro msgs
  induction msgs with
  | nil => simp
  | cons m rest ih =>
    simp only [List.filter_cons]
    cases hs : m.severity <;> simp [hs] <;> omega

/-- C3: the `ValidationResult` returned by `validate_document` (with the
source's `apply_rule`) has `is_valid = true` exactly when its error list
is empty, and the error/warning/info lists hold exactly the
Error/Warning/Info-severity messages, so Warning and Info messages never
affect validity. -/
theorem C3_is_valid_iff_no_errors (content : List Nat)
    (format : DocumentFormat) (rules : List ValidationRule)
    (r : ValidationResult)
    (h : validate_document apply_rule content format rules = .ok r) :
    (r.is_valid = true ↔ r.errors = []) ∧
    (∀ m ∈ r.errors, m.severity = .Error) ∧
    (∀ m ∈ r.warnings, m.severity = .Warning) ∧
    (∀ m ∈ r.info, m.severity = .Info) := by
  rw [validate_document_eq] at h
  cases h
  refine ⟨List.isEmpty_iff, ?_, ?_, ?_⟩ <;> intro m hm <;>
    simpa using (List.mem_filter.mp hm).2

/-- Witness for C3: a MaxFileSize rule with threshold 0 on one-byte
content yields an invalid result whose single message is the error. -/
theorem C3_witness :
    ∃ r, validate_document apply_rule [0] .Pdf [sampleRule] = .ok r ∧
      (r.is_valid = true ↔ r.errors = []) ∧
      (∀ m ∈ r.errors, m.severity = .Error) := by
  refine ⟨_, rfl, ?_⟩
  have h := C3_is_valid_iff_no_errors [0] .Pdf [sampleRule] _ rfl
  exact ⟨h.1, h.2.1⟩

/-- C4: for every rule evaluator (in particular the source's
`apply_rule`), `validate_document` always returns a result, its three
message lists together hold exactly one message per rule, and a rule
whose evaluation fails contributes an Error-severity message carrying
that rule's name instead of aborting the pass. -/
theorem C4_one_message_per_rule_failure_isolation
    (applyR : List Nat → DocumentFormat → ValidationRule →
              Except FilefireError ValidationMessage)
    (content : List Nat) (format : DocumentFormat)
    (rules : List ValidationRule) :
    ∃ r, validate_document applyR content format rules = .ok r ∧
      r.errors.length + r.warnings.length + r.info.length = rules.length ∧
      (∀ rule ∈ rules, ∀ e, applyR content format rule = .error e →
        ruleFailureMessage rule e ∈ r.errors ∧
        (ruleFailureMessage rule e).severity = .Error ∧
        (ruleFailureMessage rule e).rule_name = rule.name) := by
  refine ⟨_, validate_document_eq applyR content format rules, ?_, ?_⟩
  · simpa using severity_filter_lengths (rules.map (ruleMessage applyR content format))
  · intro rule hrule e he
    have hmsg : ruleMessage applyR content format rule = ruleFailureMessage rule e := by
      unfold ruleMessage
      rw [he]
    refine ⟨?_, rfl, rfl⟩
    apply List.mem_filter.mpr
    constructor
    · rw [← hmsg]
      exact List.mem_map_of_mem _ hrule
    · simp [ruleFailureMessage]

/-- Witness for C4: an always-failing evaluator on a single rule yields
one Error message carrying the rule's name. -/
theorem C4_witness :
    ∃ r, validate_document (fun _ _ _ => .error (.Generic "boom"))
          [] .Pdf [sampleRule] = .ok r ∧
      r.errors.length + r.warnings.length + r.info.length = 1 ∧
      ruleFailureMessage sampleRule (.Generic "boom") ∈ r.errors := by
  obtain ⟨r, hr, hc, hf⟩ := C4_one_message_per_rule_failure_isolation
    (fun _ _ _ => .error (.Generic "boom")) [] .Pdf [sampleRule]
  exact ⟨r, hr, hc, (hf sampleRule (by simp) (.Generic "boom") rfl).1⟩

/-! ### Theorems: encoding detection (C9, C10) -/

theorem all_ascii_validUtf8 : ∀ content : List Nat,
    content.all (fun b => b < 128) = true → validUtf8 content = true := by
  intro content
  induction content with
  | nil => intro _; rfl
  | cons b rest ih =>
    intro h
    rw [List.all_cons, Bool.and_eq_true] at h
    have hb : b < 128 := by simpa using h.1
    have hrest := ih h.2
    unfold validUtf8 utf8Decode at hrest ⊢
    have hs : utf8Step (b :: rest) = some (b, rest) := by
      simp [utf8Step, hb]
    simp only [List.length_cons, utf8DecodeAux, hs]
    cases hd : utf8DecodeAux rest.length rest with
    | none => rw [hd] at hrest; simp at hrest
    | some cs => simp [hd]

/-- C9: content starting with the UTF-8 BOM EF BB BF is detected as
UTF-8 with a BOM, and content starting with FF FE (and not with the
UTF-8 BOM) is detected as UTF-16LE with a BOM. -/
theorem C9_bom_detection (content : List Nat) :
    ([0xEF, 0xBB, 0xBF] <+: content →
      detect_encoding content =
        .ok { encoding := "UTF-8", confidence := 1, has_bom := true }) ∧
    ([0xFF, 0xFE] <+: content → ¬([0xEF, 0xBB, 0xBF] <+: content) →
      detect_encoding content =
        .ok { encoding := "UTF-16LE", confidence := 1, has_bom := true }) := by
  constructor
  · intro h
    have hb : ([0xEF, 0xBB, 0xBF] : List Nat).isPrefixOf content = true := by
      simpa using h
    unfold detect_encoding
    rw [if_pos hb]
  · intro h hno
    have hb : ([0xFF, 0xFE] : List Nat).isPrefixOf content = true := by
      simpa using h
    have hn3 : ¬(([0xEF, 0xBB, 0xBF] : List Nat).isPrefixOf content = true) :=
      fun ht => hno (by simpa using ht)
    unfold detect_encoding
    rw [if_neg hn3, if_pos hb]

/-- Witness for C9: the two BOMs on their own. -/
theorem C9_witness :
    detect_encoding [0xEF, 0xBB, 0xBF] =
      .ok { encoding := "UTF-8", confidence := 1, has_bom := true } ∧
    detect_encoding [0xFF, 0xFE] =
      .ok { encoding := "UTF-16LE", confidence := 1, has_bom := true } := by
  constructor
  · exact (C9_bom_detection [0xEF, 0xBB, 0xBF]).1 List.prefix_rfl
  · exact (C9_bom_detection [0xFF, 0xFE]).2 List.prefix_rfl
      (fun h => absurd h.length_le (by norm_num))

/-- C10: the ASCII branch of `detect_encoding` is dead code — it is
guarded by "not valid UTF-8" yet "all bytes below 128", which is
contradictory — so no input is ever classified "ASCII", and every
BOM-less input is classified UTF-8 with confidence 0.9 (valid UTF-8) or
0.5 (lossy fallback). -/
theorem C10_ascii_branch_unreachable (content : List Nat) :
    (∀ e, detect_encoding content = .ok e → e.encoding ≠ "ASCII") ∧
    (¬([0xEF, 0xBB, 0xBF] <+: content) → ¬([0xFF, 0xFE] <+: content) →
     ¬([0xFE, 0xFF] <+: content) →
      detect_encoding content = .ok
        { encoding := "UTF-8",
          confidence := if validUtf8 content then 9/10 else 1/2,
          has_bom := false }) := by
  constructor
  · intro e he
    unfold detect_encoding at he
    split_ifs at he with h1 h2 h3 h4 h5
    · cases he; decide
    · cases he; decide
    · cases he; decide
    · cases he; decide
    · exact absurd (all_ascii_validUtf8 content h5) h4
    · cases he; decide
  · intro h1 h2 h3
    have hn1 : ¬(([0xEF, 0xBB, 0xBF] : List Nat).isPrefixOf content = true) :=
      fun ht => h1 (by simpa using ht)
    have hn2 : ¬(([0xFF, 0xFE] : List Nat).isPrefixOf content = true) :=
      fun ht => h2 (by simpa using ht)
    have hn3 : ¬(([0xFE, 0xFF] : List Nat).isPrefixOf content = true) :=
      fun ht => h3 (by simpa using ht)
    unfold detect_encoding
    rw [if_neg hn1, if_neg hn2, if_neg hn3]
    by_cases hv : validUtf8 content = true
    · rw [if_pos hv, if_pos hv]
    · have ha : ¬(content.all (fun b => b < 128) = true) := by
        intro hall
        exact hv (all_ascii_validUtf8 content hall)
      rw [if_neg hv, if_neg hv, if_neg ha]

/-- Witness for C10: the lone invalid byte FF is BOM-less, never ASCII,
and classified UTF-8 with the lossy confidence 0.5. -/
theorem C10_witness :
    (∀ e, detect_encoding [0xFF] = .ok e → e.encoding ≠ "ASCII") ∧
    detect_encoding [0xFF] =
      .ok { encoding := "UTF-8", confidence := 1/2, has_bom := false } := by
  obtain ⟨hne, hrun⟩ := C10_ascii_branch_unreachable [0xFF]
  refine ⟨hne, ?_⟩
  have h := hrun (fun h => absurd h.length_le (by norm_num))
    (fun h => absurd h.length_le (by norm_num))
    (fun h => absurd h.length_le (by norm_num))
  have hv : validUtf8 [0xFF] = false := by decide
  rw [hv] at h
  simpa using h

/-! ### Theorems: security scan totality (C5) and the engine (C6, C7) -/

theorem exceptBind_ok {α β ε : Type} {x : Except ε α} {f : α → Except ε β}
    {b : β} (h : (x >>= f) = .ok b) : ∃ a, x = .ok a ∧ f a = .ok b := by
  cases x with
  | error e => simp [Bind.bind, Except.bind] at h
  | ok a => exact ⟨a, rfl, by simpa [Bind.bind, Except.bind] using h⟩

/-- Counterexample to C5: with no format argument, `security_scan` first
runs format detection, and on the single undetectable byte FF (no magic
match, no filename, invalid UTF-8) it fails with `UnsupportedFormat`
instead of returning a `SecurityAnalysis`. -/
theorem C5_counterexample :
    security_scan rxZero magic_bytes_table [0xFF] none =
      .error (.UnsupportedFormat "Unable to detect document format") := by
  rfl

/-- C5 (amended): `security_scan` never fails whenever a format argument
is supplied, and the underlying `analyze_content` returns a
`SecurityAnalysis` for every content, format and regex oracle — in
particular every pattern-compile failure (an oracle returning `none`)
degrades to the neutral default instead of an error.  Only the
`format = None` path can fail, by propagating a format-detection
failure. -/
theorem C5_security_scan_total_given_format (rx : RegexEngine)
    (tbl : List (List Nat × DocumentFormat)) (content : List Nat)
    (format : DocumentFormat) :
    (∃ a, security_scan rx tbl content (some format) = .ok a) ∧
    (∃ a, analyze_content rx content format = .ok a) := by
  obtain ⟨a, ha, _, _⟩ := analyze_content_ok rx content format
  exact ⟨⟨a, ha⟩, ⟨a, ha⟩⟩

/-- C6: on every successful `process_document` run, the overall stats
take their error/warning counts from the validation result (overriding
the processor's own counts), while pages, text characters, images and
annotations come from the chosen processor's stats. -/
theorem C6_overall_stats_aggregation (rx : RegexEngine)
    (procs : FormatProcessors) (tbl : List (List Nat × DocumentFormat))
    (ems now : Nat) (content : List Nat) (filename password : Option String)
    (rules : List ValidationRule) (doc : ProcessedDocument)
    (h : process_document rx procs tbl ems now content filename password rules
         = .ok doc) :
    doc.overall_stats.errors_encountered =
      doc.validation_result.errors.length % 2 ^ 32 ∧
    doc.overall_stats.warnings_generated =
      doc.validation_result.warnings.length % 2 ^ 32 ∧
    (doc.validation_result.errors.length < 2 ^ 32 →
      doc.overall_stats.errors_encountered =
        doc.validation_result.errors.length) ∧
    (doc.validation_result.warnings.length < 2 ^ 32 →
      doc.overall_stats.warnings_generated =
        doc.validation_result.warnings.length) ∧
    doc.overall_stats.pages_processed =
      get_pages_processed doc.processing_result ∧
    doc.overall_stats.text_extracted_chars =
      get_text_chars doc.processing_result ∧
    doc.overall_stats.images_extracted =
      get_images_extracted doc.processing_result ∧
    doc.overall_stats.annotations_found =
      get_annotations_found doc.processing_result := by
  unfold process_document at h
  obtain ⟨fmt, hfmt, h⟩ := exceptBind_ok h
  obtain ⟨sec, hsec, h⟩ := exceptBind_ok h
  obtain ⟨vres, hvres, h⟩ := exceptBind_ok h
  obtain ⟨pres, hpres, h⟩ := exceptBind_ok h
  cases h
  refine ⟨rfl, rfl, ?_, ?_, rfl, rfl, rfl, rfl⟩
  · intro hlt; exact Nat.mod_eq_of_lt hlt
  · intro hlt; exact Nat.mod_eq_of_lt hlt

/-- Witness for C6: a concrete successful PDF run with sample
processors. -/
theorem C6_witness :
    ∃ d, process_document rxZero sampleProcs magic_bytes_table 0 0
          (strCodes "%PDF-") none none [] = .ok d ∧
      d.overall_stats.errors_encountered =
        d.validation_result.errors.length % 2 ^ 32 ∧
      d.overall_stats.pages_processed =
        get_pages_processed d.processing_result := by
  obtain ⟨d, hd⟩ : ∃ d, process_document rxZero sampleProcs magic_bytes_table 0 0
      (strCodes "%PDF-") none none [] = .ok d := ⟨_, rfl⟩
  have hc := C6_overall_stats_aggregation rxZero sampleProcs magic_bytes_table
    0 0 (strCodes "%PDF-") none none [] d hd
  exact ⟨d, hd, hc.1, hc.2.2.2.2.1⟩

/-- C7: the analysis outputs of `process_document` are deterministic —
two runs on identical content, filename, password and rules agree on
the detected format, the entire security analysis (in particular the
risk level) and the validation errors, for any magic-table iteration
orders, any wall-clock readings and even different processor
behaviours; and format detection itself is a pure function of
(content, filename), independent of the table order. -/
theorem C7_process_document_deterministic (rx : RegexEngine)
    (procs₁ procs₂ : FormatProcessors)
    (tbl₁ tbl₂ : List (List Nat × DocumentFormat))
    (ems₁ ems₂ now₁ now₂ : Nat) (content : List Nat)
    (filename password : Option String) (rules : List ValidationRule)
    (d₁ d₂ : ProcessedDocument)
    (hp₁ : tbl₁.Perm magic_bytes_table) (hp₂ : tbl₂.Perm magic_bytes_table)
    (h₁ : process_document rx procs₁ tbl₁ ems₁ now₁ content filename password
          rules = .ok d₁)
    (h₂ : process_document rx procs₂ tbl₂ ems₂ now₂ content filename password
          rules = .ok d₂) :
    detect_format tbl₁ content filename = detect_format tbl₂ content filename ∧
    d₁.format = d₂.format ∧
    d₁.security_analysis = d₂.security_analysis ∧
    d₁.validation_result.errors = d₂.validation_result.errors := by
  have hdet : detect_format tbl₁ content filename =
      detect_format tbl₂ content filename :=
    detect_format_perm_invariant tbl₁ tbl₂ content filename
      (hp₁.trans hp₂.symm)
      (magic_table_indep.perm hp₁.symm (fun h => entriesIndep_symm h))
  unfold process_document at h₁ h₂
  obtain ⟨f₁, hf₁, h₁⟩ := exceptBind_ok h₁
  obtain ⟨f₂, hf₂, h₂⟩ := exceptBind_ok h₂
  rw [hdet, hf₂] at hf₁
  cases hf₁
  obtain ⟨s₁, hs₁, h₁⟩ := exceptBind_ok h₁
  obtain ⟨s₂, hs₂, h₂⟩ := exceptBind_ok h₂
  rw [hs₂] at hs₁
  cases hs₁
  obtain ⟨v₁, hv₁, h₁⟩ := exceptBind_ok h₁
  obtain ⟨v₂, hv₂, h₂⟩ := exceptBind_ok h₂
  rw [hv₂] at hv₁
  cases hv₁
  obtain ⟨p₁, hp₁', h₁⟩ := exceptBind_ok h₁
  obtain ⟨p₂, hp₂', h₂⟩ := exceptBind_ok h₂
  cases h₁
  cases h₂
  exact ⟨hdet, rfl, rfl, rfl⟩

/-- Witness for C7: two concrete runs with different processors, clock
readings and (trivially permuted) tables agree on format, security
analysis and validation errors. -/
theorem C7_witness :
    ∃ d₁ d₂,
      process_document rxZero sampleProcs magic_bytes_table 0 0
        (strCodes "%PDF-") none none [] = .ok d₁ ∧
      process_document rxZero sampleProcs magic_bytes_table 5 7
        (strCodes "%PDF-") none none [] = .ok d₂ ∧
      d₁.format = d₂.format ∧
      d₁.security_analysis = d₂.security_analysis ∧
      d₁.validation_result.errors = d₂.validation_result.errors := by
  obtain ⟨d₁, hd₁⟩ : ∃ d, process_document rxZero sampleProcs magic_bytes_table
      0 0 (strCodes "%PDF-") none none [] = .ok d := ⟨_, rfl⟩
  obtain ⟨d₂, hd₂⟩ : ∃ d, process_document rxZero sampleProcs magic_bytes_table
      5 7 (strCodes "%PDF-") none none [] = .ok d := ⟨_, rfl⟩
  have hc := C7_process_document_deterministic rxZero sampleProcs sampleProcs
    magic_bytes_table magic_bytes_table 0 5 0 7 (strCodes "%PDF-") none none []
    d₁ d₂ (List.Perm.refl _) (List.Perm.refl _) hd₁ hd₂
  exact ⟨d₁, d₂, hd₁, hd₂, hc.2.1, hc.2.2.1, hc.2.2.2⟩
